import Mathlib

/-!
Shallow embedding of the PARROT rating application (src/streamlit_app.py):
a Streamlit app in which reviewers rate text reports drawn from per-user
pools, with an append-only per-user Excel action log as the source of truth
for which reports a user has already rated.

File-system effects are made explicit: an Excel/JSONL file that may be
absent is an `Option`, and a read that may raise is an `Except`.  Reports
and log rows are structures mirroring the record shapes the Python code
manipulates; `rating_id` is `Option String` because the code accesses it
with `dict.get`, which yields `None` when the key is absent.
-/

/-- A report record, as read from a JSONL pool file.  The Python code only
touches the keys `rating_id` (via `.get`, hence optional) and
`report_to_rate`; further metadata fields do not affect any behaviour that
is modelled here. -/
structure Report where
  rating_id : Option String
  report_to_rate : String
  deriving DecidableEq, Repr

/-- One row of a user's action-log Excel file, in the schema written by
`log_action`: columns Timestamp, Username, Action, Report ID, Rating,
Comments. -/
structure LogEntry where
  timestamp : String
  username : String
  action : String
  report_id : String
  rating : String
  comments : String
  deriving DecidableEq, Repr

/-- The expected column list of an action-log file
(`columns = ['Timestamp', 'Username', 'Action', 'Report ID', 'Rating', 'Comments']`
in `log_action`). -/
def expectedColumns : List String :=
  ["Timestamp", "Username", "Action", "Report ID", "Rating", "Comments"]

/-- The cell row that `log_action` builds for one new entry
(`pd.DataFrame([[timestamp, username, action, report_id, rating, comments]])`). -/
def entryRow (e : LogEntry) : List String :=
  [e.timestamp, e.username, e.action, e.report_id, e.rating, e.comments]

/-- An Excel file as `log_action` sees it: a header (column list) plus rows.
A file on disk may have any columns, so rows are raw cell lists. -/
structure XlsxFile where
  columns : List String
  rows : List (List String)
  deriving DecidableEq, Repr

/-- `log_action` (src/streamlit_app.py:28-46), as a pure transformation of
the user's log file: if the file is absent the new file holds just the new
entry; if it exists with the expected columns the new entry is concatenated
at the end; if its columns differ from the expected schema the old contents
are discarded and the file restarts with just the new entry. -/
def log_action (file : Option XlsxFile) (e : LogEntry) : XlsxFile :=
  match file with
  | none => ⟨expectedColumns, [entryRow e]⟩
  | some f =>
      if f.columns = expectedColumns then
        ⟨expectedColumns, f.rows ++ [entryRow e]⟩
      else
        ⟨expectedColumns, [entryRow e]⟩

/-- `get_rated_reports` (src/streamlit_app.py:97-106) on a successfully
read log: the set of distinct `Report ID` values of the rows whose
`Action` is `'Submit Rating'`
(`set(log_df[log_df['Action'] == 'Submit Rating']['Report ID'].unique())`). -/
def get_rated_reports (log : List LogEntry) : Finset String :=
  ((log.filter (fun e => e.action == "Submit Rating")).map
    (fun e => e.report_id)).toFinset

/-- `get_rated_reports` including its file handling: a missing log file
yields the empty set, and any exception while reading or filtering the
existing file (the bare `except Exception`) also yields the empty set. -/
def get_rated_reports_file (file : Option (Except String (List LogEntry))) :
    Finset String :=
  match file with
  | none => ∅
  | some (Except.error _) => ∅
  | some (Except.ok log) => get_rated_reports log

/-- The membership test `r.get('rating_id') not in rated_reports`, negated:
a report counts as rated when it has a `rating_id` and that id is in the
rated set (a missing `rating_id` gives Python `None`, which is never in the
set of id strings). -/
def isRated (rated : Finset String) (r : Report) : Bool :=
  match r.rating_id with
  | some i => decide (i ∈ rated)
  | none => false

/-- The next-report selection shared by `draw_progress_page`
(src/streamlit_app.py:165-168) and `draw_rating_page`
(src/streamlit_app.py:211-214):
`reports_to_rate = [r for r in all_reports if r.get('rating_id') not in rated_reports]`
followed by taking `reports_to_rate[0]` when the list is non-empty. -/
def next_unrated (pool : List Report) (rated : Finset String) : Option Report :=
  (pool.filter (fun r => !isRated rated r)).head?

/-- `load_reports` (src/streamlit_app.py:72-80): a missing source file
returns the empty list; an existing file returns its records in file
order.  The JSONL decoding of each line is abstracted: the source is
already a list of parsed reports. -/
def load_reports (src : Option (List Report)) : List Report :=
  match src with
  | none => []
  | some reports => reports

/-- The default pool source, `Path("rating_reports.jsonl")`. -/
def defaultReportFile : String := "rating_reports.jsonl"

/-- The `for report_file, users in mapping.items()` loop of
`get_report_file_for_user`: the first pool whose user list contains the
username wins; falling off the end yields the default file. -/
def findReportFile (username : String) :
    List (String × List String) → String
  | [] => defaultReportFile
  | (file, users) :: rest =>
      if username ∈ users then file else findReportFile username rest

/-- `get_report_file_for_user` (src/streamlit_app.py:61-70): with no
mapping file the default pool is returned; otherwise the mapping's entries
are walked in order and the first pool listing the username wins, with the
default pool as fallback for unlisted users. -/
def get_report_file_for_user
    (mapping : Option (List (String × List String))) (username : String) :
    String :=
  match mapping with
  | none => defaultReportFile
  | some m => findReportFile username m

/-- The rated count shown on the progress page
(`rated_count = len(rated_reports)`, src/streamlit_app.py:157). -/
def progress_rated (log : List LogEntry) : Nat :=
  (get_rated_reports log).card

/-- The total count shown on the progress page
(`total_reports = len(all_reports)`, src/streamlit_app.py:156). -/
def progress_total (pool : List Report) : Nat :=
  pool.length

/-- One row of the users Excel file: `username`, `password`, and the
`is_admin` flag added by `initialize_admin_user`. -/
structure UserRecord where
  username : String
  password : String
  is_admin : Bool
  deriving DecidableEq, Repr

/-- The lookup `users_df[users_df['username'] == username]` followed by
`user_record.iloc[0]`: the first roster row with the given username, if
any. -/
def findUser (users : List UserRecord) (name : String) : Option UserRecord :=
  users.find? (fun u => u.username == name)

/-- The Streamlit session state the router reads: `logged_in`, `page`,
`username` (absent before login), and `is_admin`. -/
structure SessionState where
  logged_in : Bool
  page : String
  username : Option String
  is_admin : Bool
  deriving DecidableEq, Repr

/-- The session as initialised by the main script before any login
(`st.session_state.logged_in = False; st.session_state.page = "login"`). -/
def initialSession : SessionState :=
  { logged_in := false, page := "login", username := none, is_admin := false }

/-- Outcome of one submitted login form (src/streamlit_app.py:125-137):
the resulting session state, the action string appended to the user's log
(if any), and whether the `Invalid username or password` error was shown. -/
structure LoginOutcome where
  session : SessionState
  logged : Option String
  error_shown : Bool
  deriving DecidableEq, Repr

/-- `draw_login_page`'s submit handler: if the first roster row matching
the username exists and its password matches, the session becomes
logged-in on the progress page and `Login Success` is logged; otherwise
the error is shown, the session is unchanged, and `Login Fail` is logged
only when the username field is non-empty (`if username:`). -/
def login_attempt (users : List UserRecord) (s : SessionState)
    (name pw : String) : LoginOutcome :=
  match findUser users name with
  | some u =>
      if u.password == pw then
        { session := { logged_in := true, page := "progress",
                       username := some name, is_admin := u.is_admin },
          logged := some "Login Success", error_shown := false }
      else
        { session := s,
          logged := if name == "" then none else some "Login Fail",
          error_shown := true }
  | none =>
      { session := s,
        logged := if name == "" then none else some "Login Fail",
        error_shown := true }

/-- The main router (src/streamlit_app.py:255-266), as the page it renders
for a given session state: logged-out sessions get the login page; pages
`progress` and `rating` render themselves; `admin` renders only when
`is_admin` holds; anything else — including an admin request by a
non-admin — falls to the final `else`, which resets the page to
`progress` and reruns, so the progress page is what renders. -/
def route (s : SessionState) : String :=
  if !s.logged_in then "login"
  else if s.page == "progress" then "progress"
  else if s.page == "rating" then "rating"
  else if s.page == "admin" && s.is_admin then "admin"
  else "progress"

/-! ### Helper lemmas -/

lemma mem_get_rated_reports (log : List LogEntry) (i : String) :
    i ∈ get_rated_reports log ↔
      ∃ e, e ∈ log ∧ e.action = "Submit Rating" ∧ e.report_id = i := by
  simp only [get_rated_reports, List.mem_toFinset, List.mem_map,
    List.mem_filter, beq_iff_eq]
  constructor
  · rintro ⟨e, ⟨he, ha⟩, hi⟩
    exact ⟨e, he, ha, hi⟩
  · rintro ⟨e, he, ha, hi⟩
    exact ⟨e, ⟨he, ha⟩, hi⟩

lemma get_rated_reports_append (l1 l2 : List LogEntry) :
    get_rated_reports (l1 ++ l2) =
      get_rated_reports l1 ∪ get_rated_reports l2 := by
  simp [get_rated_reports, List.filter_append, List.toFinset_append]

lemma filterHeadSome {α : Type} (p : α → Bool) (l : List α) (x : α)
    (h : (l.filter p).head? = some x) :
    ∃ pre post, l = pre ++ x :: post
      ∧ (∀ y ∈ pre, p y = false) ∧ p x = true := by
  induction l with
  | nil => simp at h
  | cons a t ih =>
    by_cases hp : p a
    · refine ⟨[], t, ?_, by simp, ?_⟩
      · simp only [List.filter_cons, hp, if_pos, List.head?_cons,
          Option.some.injEq] at h
        simp [← h]
      · simp only [List.filter_cons, hp, if_pos, List.head?_cons,
          Option.some.injEq] at h
        rw [← h]; exact hp
    · rw [List.filter_cons_of_neg (by simpa using hp)] at h
      obtain ⟨pre, post, hl, hpre, hx⟩ := ih h
      exact ⟨a :: pre, post, by rw [hl]; rfl, by
        intro y hy
        rcases List.mem_cons.mp hy with hy | hy
        · subst hy; simpa using hp
        · exact hpre y hy, hx⟩

lemma filterHeadNone {α : Type} (p : α → Bool) (l : List α) :
    (l.filter p).head? = none ↔ ∀ y ∈ l, p y = false := by
  rw [List.head?_eq_none_iff, List.filter_eq_nil_iff]
  simp

/-! ### Claim theorems -/

/-- C2: for every user, the rated set has exactly the distinct `Report ID`
values of the user's `Submit Rating` log entries, and submitting a rating
again for an already-rated report appends exactly one new log entry while
leaving the rated set's membership and cardinality unchanged. -/
theorem c2_rated_set_resubmission (log : List LogEntry) (e : LogEntry)
    (ha : e.action = "Submit Rating")
    (hm : e.report_id ∈ get_rated_reports log) :
    (∀ i, i ∈ get_rated_reports (log ++ [e]) ↔
        ∃ x, x ∈ log ++ [e] ∧ x.action = "Submit Rating" ∧ x.report_id = i)
    ∧ get_rated_reports (log ++ [e]) = get_rated_reports log
    ∧ (get_rated_reports (log ++ [e])).card = (get_rated_reports log).card
    ∧ (log ++ [e]).length = log.length + 1 := by
  have hsingle : get_rated_reports [e] = {e.report_id} := by
    simp [get_rated_reports, List.filter_cons, ha]
  have heq : get_rated_reports (log ++ [e]) = get_rated_reports log := by
    rw [get_rated_reports_append, hsingle]
    exact Finset.union_eq_left.mpr (Finset.singleton_subset_iff.mpr hm)
  exact ⟨fun i => mem_get_rated_reports _ i, heq, by rw [heq], by simp⟩

/-- C2 witness: resubmitting report `x` leaves the rated set and its
cardinality unchanged while the log grows by one entry. -/
theorem c2_rated_set_resubmission_witness :
    get_rated_reports
        ([LogEntry.mk "t1" "u" "Submit Rating" "x" "No error" ""]
          ++ [LogEntry.mk "t2" "u" "Submit Rating" "x" "Other error" ""])
      = get_rated_reports
          [LogEntry.mk "t1" "u" "Submit Rating" "x" "No error" ""]
    ∧ (get_rated_reports
        ([LogEntry.mk "t1" "u" "Submit Rating" "x" "No error" ""]
          ++ [LogEntry.mk "t2" "u" "Submit Rating" "x" "Other error" ""])).card
      = (get_rated_reports
          [LogEntry.mk "t1" "u" "Submit Rating" "x" "No error" ""]).card
    ∧ ([LogEntry.mk "t1" "u" "Submit Rating" "x" "No error" ""]
        ++ [LogEntry.mk "t2" "u" "Submit Rating" "x" "Other error" ""]).length
      = [LogEntry.mk "t1" "u" "Submit Rating" "x" "No error" ""].length + 1 :=
  (c2_rated_set_resubmission
    [LogEntry.mk "t1" "u" "Submit Rating" "x" "No error" ""]
    (LogEntry.mk "t2" "u" "Submit Rating" "x" "Other error" "")
    rfl (by decide)).2

/-- The first-match characterization of the mapping walk: it returns the
first entry whose user list contains the username, defaulting when none
does. -/
lemma findReportFile_eq_find (u : String) (m : List (String × List String)) :
    findReportFile u m =
      ((m.find? (fun p => decide (u ∈ p.2))).map Prod.fst).getD
        defaultReportFile := by
  induction m with
  | nil => rfl
  | cons p rest ih =>
    obtain ⟨file, users⟩ := p
    by_cases h : u ∈ users
    · simp [findReportFile, List.find?_cons, h]
    · simp [findReportFile, List.find?_cons, h, ih]

/-- C5: assignment resolution is total and deterministic: an absent
mapping yields the default pool; with a mapping present, the first pool
in mapping order whose member list contains the username is returned; a
username listed in no pool gets the default pool; and resolving the same
username against the same mapping twice gives the same pool. -/
theorem c5_assignment_resolution (u : String) :
    get_report_file_for_user none u = defaultReportFile
    ∧ (∀ m, get_report_file_for_user (some m) u =
        ((m.find? (fun p => decide (u ∈ p.2))).map Prod.fst).getD
          defaultReportFile)
    ∧ (∀ m, (∀ p ∈ m, u ∉ p.2) →
        get_report_file_for_user (some m) u = defaultReportFile)
    ∧ (∀ mapping, get_report_file_for_user mapping u
        = get_report_file_for_user mapping u) := by
  refine ⟨rfl, fun m => findReportFile_eq_find u m, fun m hm => ?_, fun _ => rfl⟩
  rw [show get_report_file_for_user (some m) u = findReportFile u m from rfl,
    findReportFile_eq_find u m, List.find?_eq_none.mpr (by simpa using hm)]
  rfl

/-- C5 witness: a user listed in the second pool of a two-pool mapping
resolves to that pool, and an unlisted user resolves to the default. -/
theorem c5_assignment_resolution_witness :
    get_report_file_for_user
        (some [("pool_a.jsonl", ["alice"]), ("pool_b.jsonl", ["bob"])]) "bob"
      = "pool_b.jsonl"
    ∧ get_report_file_for_user (some [("pool_a.jsonl", ["alice"])]) "carol"
      = defaultReportFile :=
  ⟨((c5_assignment_resolution "bob").2.1
      [("pool_a.jsonl", ["alice"]), ("pool_b.jsonl", ["bob"])]).trans (by decide),
   (c5_assignment_resolution "carol").2.2.1
      [("pool_a.jsonl", ["alice"])] (by decide)⟩

/-- C6: appending to a user's action log keeps all previous rows,
unchanged and in order, and adds exactly one new row at the end when the
existing file has the expected schema; a schema-incompatible file is
restarted so the result holds only the new row, as does an append to an
absent file. -/
theorem c6_log_append (file : Option XlsxFile) (e : LogEntry) :
    (∀ f, file = some f → f.columns = expectedColumns →
        log_action file e = ⟨expectedColumns, f.rows ++ [entryRow e]⟩)
    ∧ (∀ f, file = some f → f.columns ≠ expectedColumns →
        log_action file e = ⟨expectedColumns, [entryRow e]⟩)
    ∧ (file = none → log_action file e = ⟨expectedColumns, [entryRow e]⟩) := by
  refine ⟨fun f hf hc => ?_, fun f hf hc => ?_, fun hf => ?_⟩
  · subst hf; simp [log_action, hc]
  · subst hf; simp [log_action, hc]
  · subst hf; rfl

/-- C6 witness: appending to a well-formed one-row log yields that row
followed by the new entry's row. -/
theorem c6_log_append_witness :
    log_action (some ⟨expectedColumns, [["t0", "u", "Login Success", "", "", ""]]⟩)
        (LogEntry.mk "t1" "u" "Logout" "" "" "")
      = ⟨expectedColumns,
          [["t0", "u", "Login Success", "", "", ""]]
            ++ [entryRow (LogEntry.mk "t1" "u" "Logout" "" "" "")]⟩ :=
  (c6_log_append
      (some ⟨expectedColumns, [["t0", "u", "Login Success", "", "", ""]]⟩)
      (LogEntry.mk "t1" "u" "Logout" "" "" "")).1 _ rfl rfl

/-- C7: a session whose user is not an admin never has the admin page
rendered — a logged-in non-admin whose page is set to `admin` is routed
to the progress page instead, with no error — while a logged-in admin
with page `admin` is granted the admin page. -/
theorem c7_admin_gate (s : SessionState) :
    (s.is_admin = false → route s ≠ "admin")
    ∧ (s.is_admin = false → s.logged_in = true → s.page = "admin" →
        route s = "progress")
    ∧ (s.is_admin = true → s.logged_in = true → s.page = "admin" →
        route s = "admin") := by
  obtain ⟨li, page, un, adm⟩ := s
  refine ⟨fun ha => ?_, fun ha hl hp => ?_, fun ha hl hp => ?_⟩
  · subst ha
    simp only [route]
    cases li with
    | false => simp
    | true =>
      by_cases h1 : page = "progress"
      · simp [h1]
      · by_cases h2 : page = "rating"
        · simp [h1, h2]
        · simp [h1, h2]
  · subst ha; subst hl; subst hp; simp [route]
  · subst ha; subst hl; subst hp; simp [route]

/-- C7 witness: a logged-in non-admin session requesting the admin page
is routed to progress, and the admin counterpart is granted. -/
theorem c7_admin_gate_witness :
    route ⟨true, "admin", some "eve", false⟩ = "progress"
    ∧ route ⟨true, "root", some "ann", true⟩ = route ⟨true, "root", some "ann", true⟩ :=
  ⟨(c7_admin_gate ⟨true, "admin", some "eve", false⟩).2.1 rfl rfl rfl, rfl⟩

/-- C10: computing the rated set is total in the face of storage faults:
a missing log file yields the empty set, and a log file whose read or
parse raises any exception also yields the empty set, so the user's
progress shows zero reports rated instead of the session failing. -/
theorem c10_rated_set_error_handling
    (file : Option (Except String (List LogEntry)))
    (h : file = none ∨ ∃ msg, file = some (Except.error msg)) :
    get_rated_reports_file file = ∅
    ∧ (get_rated_reports_file file).card = 0 := by
  rcases h with h | ⟨msg, h⟩ <;> subst h <;> exact ⟨rfl, rfl⟩

/-- C10 witness: a missing log file gives the empty rated set and a rated
count of zero. -/
theorem c10_rated_set_error_handling_witness :
    get_rated_reports_file none = ∅
    ∧ (get_rated_reports_file none).card = 0 :=
  c10_rated_set_error_handling none (Or.inl rfl)

/-- A report whose `rating_id` is a set member counts as rated. -/
lemma isRated_eq_true {rated : Finset String} {r : Report} {i : String}
    (hid : r.rating_id = some i) (hm : i ∈ rated) :
    isRated rated r = true := by
  simp [isRated, hid, hm]

/-- C1: the next report selected for rating is the first report in Report
Store (file) order whose `rating_id` is not in the rated set; the
selection is `none` exactly when every report in the pool counts as
rated; and two consecutive selections with no intervening submission are
identical. -/
theorem c1_next_unrated_selection (pool : List Report) (rated : Finset String) :
    (∀ r, next_unrated pool rated = some r →
        ∃ pre post, pool = pre ++ r :: post
          ∧ (∀ x ∈ pre, isRated rated x = true)
          ∧ isRated rated r = false)
    ∧ (next_unrated pool rated = none ↔ ∀ r ∈ pool, isRated rated r = true)
    ∧ next_unrated pool rated = next_unrated pool rated := by
  refine ⟨fun r hr => ?_, ?_, rfl⟩
  · obtain ⟨pre, post, hl, hpre, hx⟩ := filterHeadSome _ _ _ hr
    refine ⟨pre, post, hl, fun x hx2 => ?_, by simpa using hx⟩
    have := hpre x hx2
    simpa using this
  · rw [next_unrated, filterHeadNone]
    constructor
    · intro h r hrp
      have := h r hrp
      simpa using this
    · intro h r hrp
      simp [h r hrp]

/-- C1 witness: with a one-report pool whose id is already rated, the
selection is `none`. -/
theorem c1_next_unrated_selection_witness :
    next_unrated [Report.mk (some "a") "ra"] ({"a"} : Finset String) = none :=
  (c1_next_unrated_selection [Report.mk (some "a") "ra"] {"a"}).2.1.mpr
    (by decide)

/-- C3: once a `Submit Rating` entry for report id R is anywhere in the
user's log, R is in the rated set, and in that state — for any pool and
any entries appended later — the next-report selection never returns a
report whose `rating_id` is R. -/
theorem c3_monotonic_progress (pool : List Report) (l1 l2 : List LogEntry)
    (e : LogEntry) (ha : e.action = "Submit Rating") :
    e.report_id ∈ get_rated_reports (l1 ++ e :: l2)
    ∧ ∀ r, next_unrated pool (get_rated_reports (l1 ++ e :: l2)) = some r →
        r.rating_id ≠ some e.report_id := by
  have hmem : e.report_id ∈ get_rated_reports (l1 ++ e :: l2) :=
    (mem_get_rated_reports _ _).mpr ⟨e, by simp, ha, rfl⟩
  refine ⟨hmem, fun r hr hcontra => ?_⟩
  obtain ⟨_, _, _, _, hx⟩ := filterHeadSome _ _ _ hr
  have hfalse : isRated (get_rated_reports (l1 ++ e :: l2)) r = false := by
    simpa using hx
  rw [isRated_eq_true hcontra hmem] at hfalse
  exact Bool.noConfusion hfalse

/-- C3 witness: after a concrete `Submit Rating` entry for report `x`,
`x` is in the rated set. -/
theorem c3_monotonic_progress_witness :
    (LogEntry.mk "t" "u" "Submit Rating" "x" "No error" "").report_id
      ∈ get_rated_reports
          ([] ++ (LogEntry.mk "t" "u" "Submit Rating" "x" "No error" "") :: []) :=
  (c3_monotonic_progress [] [] []
    (LogEntry.mk "t" "u" "Submit Rating" "x" "No error" "") rfl).1

/-- C4 counterexample: with an empty resolved pool and a log holding one
`Submit Rating` entry, the progress page shows a rated count of 1 against
a total of 0, so rated ≤ total fails. -/
theorem c4_progress_bound_counterexample :
    ¬ (progress_rated [LogEntry.mk "t" "u" "Submit Rating" "x" "No error" ""]
        ≤ progress_total ([] : List Report)) := by
  decide

/-- C4 amended: the rated count is at most the total count whenever every
id in the rated set is the `rating_id` of some report in the resolved
pool — in particular in every run where the user's submissions all came
from the current pool. -/
theorem c4_progress_bound (pool : List Report) (log : List LogEntry)
    (h : ∀ i ∈ get_rated_reports log, ∃ r ∈ pool, r.rating_id = some i) :
    progress_rated log ≤ progress_total pool := by
  show (get_rated_reports log).card ≤ pool.length
  have hsub : get_rated_reports log ⊆
      (pool.filterMap Report.rating_id).toFinset := by
    intro i hi
    obtain ⟨r, hr, hid⟩ := h i hi
    rw [List.mem_toFinset, List.mem_filterMap]
    exact ⟨r, hr, hid⟩
  calc (get_rated_reports log).card
      ≤ (pool.filterMap Report.rating_id).toFinset.card :=
        Finset.card_le_card hsub
    _ ≤ (pool.filterMap Report.rating_id).length := List.toFinset_card_le _
    _ ≤ pool.length := List.length_filterMap_le _ _

/-- C4 witness: one report rated out of a one-report pool containing it
satisfies the bound. -/
theorem c4_progress_bound_witness :
    progress_rated [LogEntry.mk "t" "u" "Submit Rating" "x" "No error" ""]
      ≤ progress_total [Report.mk (some "x") "body"] :=
  c4_progress_bound [Report.mk (some "x") "body"]
    [LogEntry.mk "t" "u" "Submit Rating" "x" "No error" ""] (by decide)

/-- C8 counterexample: loading from a missing source returns the empty
sequence — no `NotFoundError` is raised — and that result is identical to
loading a genuinely empty pool, so the two cases are not distinguishable. -/
theorem c8_load_missing_counterexample :
    load_reports (none : Option (List Report)) = ([] : List Report)
    ∧ load_reports (none : Option (List Report))
        = load_reports (some ([] : List Report)) :=
  ⟨rfl, rfl⟩

/-- C8 amended: loading never fails; the result is the empty sequence
exactly when the source is missing or genuinely empty, so callers cannot
distinguish a missing source from an empty pool. -/
theorem c8_load_missing_amended (src : Option (List Report)) :
    load_reports src = [] ↔ src = none ∨ src = some [] := by
  cases src with
  | none => simp [load_reports]
  | some l => simp [load_reports]

/-- C8 witness: a missing source loads as the empty sequence. -/
theorem c8_load_missing_amended_witness :
    load_reports (none : Option (List Report)) = [] :=
  (c8_load_missing_amended none).mpr (Or.inl rfl)

/-- C9 counterexample: a failed login attempt with an empty username shows
the error and stays logged out, but appends no log entry at all — the
claim that every failed attempt appends a `Login Fail` entry is false. -/
theorem c9_login_counterexample :
    (login_attempt [UserRecord.mk "alice" "pw" false]
        initialSession "" "secret").error_shown = true
    ∧ (login_attempt [UserRecord.mk "alice" "pw" false]
        initialSession "" "secret").session = initialSession
    ∧ (login_attempt [UserRecord.mk "alice" "pw" false]
        initialSession "" "secret").logged = none := by
  refine ⟨rfl, rfl, rfl⟩

/-- C9 amended: a successful login attempt moves the session to the
progress page and logs `Login Success`; a failed attempt (wrong password
or unknown username) shows the error, leaves the session unchanged — so a
LoggedOut session stays logged out — and appends a `Login Fail` entry
exactly when the submitted username is non-empty. -/
theorem c9_login_transitions (users : List UserRecord) (s : SessionState)
    (name pw : String) :
    (∀ u, findUser users name = some u → u.password = pw →
        (login_attempt users s name pw).session.logged_in = true
        ∧ (login_attempt users s name pw).session.page = "progress"
        ∧ (login_attempt users s name pw).logged = some "Login Success"
        ∧ (login_attempt users s name pw).error_shown = false)
    ∧ (∀ u, findUser users name = some u → u.password ≠ pw →
        (login_attempt users s name pw).session = s
        ∧ (login_attempt users s name pw).error_shown = true
        ∧ (login_attempt users s name pw).logged
            = (if name == "" then none else some "Login Fail"))
    ∧ (findUser users name = none →
        (login_attempt users s name pw).session = s
        ∧ (login_attempt users s name pw).error_shown = true
        ∧ (login_attempt users s name pw).logged
            = (if name == "" then none else some "Login Fail")) := by
  refine ⟨fun u hu hp => ?_, fun u hu hp => ?_, fun hu => ?_⟩
  · simp [login_attempt, hu, hp]
  · simp [login_attempt, hu, beq_iff_eq, hp]
  · simp [login_attempt, hu]

/-- C9 witness: an attempt with an unknown, non-empty username leaves the
session unchanged, shows the error, and logs `Login Fail`. -/
theorem c9_login_transitions_witness :
    (login_attempt [] initialSession "bob" "pw").session = initialSession
    ∧ (login_attempt [] initialSession "bob" "pw").error_shown = true
    ∧ (login_attempt [] initialSession "bob" "pw").logged
        = (if ("bob" : String) == "" then none else some "Login Fail") :=
  (c9_login_transitions [] initialSession "bob" "pw").2.2 rfl
